import Mathlib

/-!
Verification development for the distributed payment system repository.

The definitions below are shallow embeddings of the Python source:
* `app/common/utils/distributed.py` — consistent hash ring, distributed lock
  decorator (Redis-backed set-if-absent / conditional delete);
* `app/common/utils/kafka_client.py` — the value mutation performed by
  `KafkaClient.produce_message` before sending;
* `app/transaction_service/main.py` — `process_transaction_message`, the
  transaction processor state machine.

Side-effecting calls (HTTP ledger calls, Kafka sends, Redis commands) are
modelled by explicit state passing and by recording the performed effects in
result traces.  Exceptions are modelled with `Except String`.
-/

/-! ## Lock Manager (`distributed.py`, `distributed_lock`)

The Redis store backing the lock is modelled as an association list from lock
keys to stored string values.  TTL expiry is an external deletion performed by
the store and is not itself modelled; the conditional-release claim only
depends on what value is currently stored. -/

/-- The shared key/value store backing the Lock Manager (Redis). -/
abbrev LockStore := List (String × String)

/-- Embeds `redis_client.set(lock_key, lock_value, nx=True, ex=lock_timeout)`:
atomically sets the binding only if the key is absent; returns whether the set
happened, together with the store afterwards. -/
def redis_set_nx (store : LockStore) (k v : String) : Bool × LockStore :=
  if (store.lookup k).isSome then (false, store) else (true, (k, v) :: store)

/-- Embeds `redis_client.delete(lock_key)`. -/
def redis_delete (store : LockStore) (k : String) : LockStore :=
  store.filter (fun p => p.1 ≠ k)

/-- Embeds the `finally` block of the `distributed_lock` wrapper
(`distributed.py` lines 110–113): read the current value of the lock key and
delete the binding only when it still equals the value this caller wrote. -/
def lock_release (store : LockStore) (k token : String) : LockStore :=
  if store.lookup k = some token then redis_delete store k else store

/-- Outcome of one run of the function wrapped by `distributed_lock`:
the returned value or propagated exception, the lock store afterwards, and
whether the guarded critical section (the wrapped function) was entered. -/
structure LockRunResult (α : Type) where
  result : Except String α
  store : LockStore
  entered : Bool
deriving Repr

/-- Embeds the `wrapper` of the `distributed_lock` decorator
(`distributed.py` lines 93–115).  `prefix_str` is the decorator's key-prefix
argument, `node_id`/`now` form the stored lock value `NODE_ID:time.time()`,
`resource_id` is the first positional argument (or `None` when missing), and
`body` is the predetermined outcome of the wrapped coroutine. -/
def distributed_lock_run {α : Type} (prefix_str node_id now : String)
    (resource_id : Option String) (body : Except String α)
    (store : LockStore) : LockRunResult α :=
  match resource_id with
  | none =>
      ⟨Except.error "Resource ID must be provided as first argument or as resource_id kwarg",
        store, false⟩
  | some rid =>
      let lock_key := prefix_str ++ ":" ++ rid
      let lock_value := node_id ++ ":" ++ now
      let acq := redis_set_nx store lock_key lock_value
      if acq.1 = false then
        ⟨Except.error ("Failed to acquire lock for " ++ lock_key), acq.2, false⟩
      else
        ⟨body, lock_release acq.2 lock_key lock_value, true⟩

/-! ## Event Channel client (`kafka_client.py`, `KafkaClient.produce_message`)

Message values are JSON-like dictionaries.  `produce_message_value` returns the
value actually handed to `producer.send`, i.e. the caller's dict after the
in-place mutation performed on lines 63–66 of `kafka_client.py`. -/

/-- JSON-like values carried in message dictionaries. -/
inductive JVal : Type where
  | null : JVal
  | str : String → JVal
  | num : Rat → JVal
  | boolean : Bool → JVal
  | obj : List (String × JVal) → JVal
deriving Repr

/-- Embeds Python `d.get(k)` / `k in d` on a dict. -/
def dictLookup (k : String) : List (String × JVal) → Option JVal
  | [] => none
  | (a, v) :: t => if a = k then some v else dictLookup k t

/-- Embeds Python `d[k] = v`: replaces the binding in place when the key is
present, appends it otherwise (Python dicts keep insertion order). -/
def dictSet (k : String) (v : JVal) : List (String × JVal) → List (String × JVal)
  | [] => [(k, v)]
  | (a, w) :: t => if a = k then (k, v) :: t else (a, w) :: dictSet k v t

/-- Embeds the value mutation in `KafkaClient.produce_message`
(`kafka_client.py` lines 63–66) for a dict-valued message: if the dict has no
`metadata` key, insert an empty dict there; then, if the `metadata` value is a
dict, set its `source_node` entry to the publishing node id.  The result is
the envelope actually sent (equal to the caller's dict after mutation). -/
def produce_message_value (node_id : String) (value : List (String × JVal)) :
    List (String × JVal) :=
  let v1 := if (dictLookup "metadata" value).isNone
            then dictSet "metadata" (JVal.obj []) value
            else value
  match dictLookup "metadata" v1 with
  | some (JVal.obj m) =>
      dictSet "metadata" (JVal.obj (dictSet "source_node" (JVal.str node_id) m)) v1
  | _ => v1

/-! ## Hash Ring (`distributed.py`, `ConsistentHashing`)

The source hashes with MD5 (`_hash`); the specification states that the
particular hash function is not a correctness requirement, only its
consistency within a run, so the hash is a parameter of the structure. -/

/-- Embeds Python dict assignment `self.ring[key] = node`. -/
def ringInsert : List (Nat × String) → Nat → String → List (Nat × String)
  | [], k, node => [(k, node)]
  | (a, b) :: t, k, node =>
      if a = k then (k, node) :: t else (a, b) :: ringInsert t k node

/-- Insertion sort of ring positions, embedding Python `sorted(...)`. -/
def insertSorted (x : Nat) : List Nat → List Nat
  | [] => [x]
  | y :: t => if x ≤ y then x :: y :: t else y :: insertSorted x t

/-- Embeds Python `sorted(self.ring.keys())`. -/
def sortKeys (l : List Nat) : List Nat := l.foldr insertSorted []

/-- Embeds the `ConsistentHashing` object state: the replica count, the hash
function (`_hash`, MD5 in the source), the ring dict from hash positions to
nodes, and the cached `sorted_keys`. -/
structure ConsistentHashing where
  replicas : Nat
  hashFn : String → Nat
  ring : List (Nat × String)
  sorted_keys : List Nat

/-- Embeds `ConsistentHashing.add_node`: insert one replica point per
`i in range(replicas)` at position `_hash(f"{node}:{i}")`, then recompute
`sorted_keys`. -/
def ConsistentHashing.add_node (ch : ConsistentHashing) (node : String) :
    ConsistentHashing :=
  let ring := (List.range ch.replicas).foldl
    (fun r i => ringInsert r (ch.hashFn (node ++ ":" ++ toString i)) node) ch.ring
  { ch with ring := ring, sorted_keys := sortKeys (ring.map Prod.fst) }

/-- Embeds `ConsistentHashing.__init__(nodes, replicas)`: start from an empty
ring and `add_node` each node. -/
def ConsistentHashing.init (hashFn : String → Nat) (nodes : List String)
    (replicas : Nat) : ConsistentHashing :=
  nodes.foldl (fun ch n => ch.add_node n)
    { replicas := replicas, hashFn := hashFn, ring := [], sorted_keys := [] }

/-- Embeds `ConsistentHashing.get_node`: raise `Exception("Hash ring is
empty")` on an empty ring, otherwise return the node at the first sorted ring
position at or after the key's hash, wrapping to the smallest position.  The
`getD`/`headD` defaults are never hit when `sorted_keys` mirrors the ring's
keys, which `add_node` maintains. -/
def ConsistentHashing.get_node (ch : ConsistentHashing) (key : String) :
    Except String String :=
  if ch.ring.isEmpty then Except.error "Hash ring is empty"
  else
    let hash_key := ch.hashFn key
    match ch.sorted_keys.find? (fun rk => hash_key ≤ rk) with
    | some rk => Except.ok ((ch.ring.lookup rk).getD "")
    | none => Except.ok ((ch.ring.lookup (ch.sorted_keys.headD 0)).getD "")

/-- Embeds `get_node_for_transaction`, applied to the process-global ring. -/
def get_node_for_transaction (ch : ConsistentHashing) (transaction_id : String) :
    Except String String :=
  ch.get_node transaction_id

/-- Embeds `is_responsible_for_key`: whether the ring owner of the key is the
local node (`NODE_ID`). -/
def is_responsible_for_key (ch : ConsistentHashing) (node_id key : String) :
    Except String Bool :=
  (get_node_for_transaction ch key).map (fun n => n == node_id)

/-! ## Transaction Processor (`transaction_service/main.py`)

`process_transaction_message` consumes one delivered message.  The database
row for the message's transaction id is passed in as `db` (`None` models "not
found").  Remote ledger calls (`update_account_balance`, an HTTP POST to the
account service's withdraw/deposit endpoint) are resolved by an environment
`ledger : Nat → LedgerResult` giving the outcome of the n-th call of the run:
`ok` models HTTP 200 (the function returns True), `failed` models a non-200
response or an `httpx.RequestError` (the function returns False), and `exn e`
models any other exception propagating out of the call, which the processor's
`except` clause catches.  All attempted ledger calls and all Kafka publishes
are recorded in the result trace; `lock_ops` records every Lock Manager
operation performed by the processor (the source performs none: the
`distributed_lock` decorator is imported in `transaction_service/main.py` but
never applied to this handler). -/

/-- Transaction status enum (`models/transactions.py`). -/
inductive TransactionStatus : Type where
  | PENDING | COMPLETED | FAILED | REVERSED
deriving DecidableEq, Repr

/-- The fields of a `Transaction` row read or written by the processor. -/
structure Txn where
  id : String
  from_account_id : String
  to_account_id : String
  amount : Rat
  currency : String
  reference_id : String
  status : TransactionStatus
  completed_at : Option String
deriving DecidableEq, Repr

/-- Outcome of one remote ledger call, decided by the environment. -/
inductive LedgerResult : Type where
  | ok | failed | exn (msg : String)
deriving DecidableEq, Repr

/-- The operation selected by `update_account_balance`'s `is_debit` flag:
`withdraw` for a debit, `deposit` for a credit. -/
inductive Op : Type where
  | withdraw | deposit
deriving DecidableEq, Repr

/-- One attempted ledger call, as issued by `update_account_balance`: target
account, endpoint operation, posted amount (`abs(amount)`), description. -/
structure LedgerCall where
  account : String
  op : Op
  amount : Rat
  description : String
deriving DecidableEq, Repr

/-- The call record `update_account_balance(account_id, amount, is_debit,
description)` issues: operation `withdraw` when `is_debit` else `deposit`,
posting `abs(amount)`. -/
def update_account_balance_call (account_id : String) (amount : Rat)
    (is_debit : Bool) (description : String) : LedgerCall :=
  ⟨account_id, if is_debit then Op.withdraw else Op.deposit, |amount|, description⟩

/-- Value of a message produced on the `transaction_events` topic. -/
inductive TxnEventVal : Type where
  | completed (transaction_id reference_id from_account_id to_account_id : String)
      (amount : Rat) (currency : String) (completed_at : Option String)
  | failed (transaction_id reference_id reason : String)
deriving DecidableEq, Repr

/-- One `kafka_client.produce_message(topic, value, key)` call made by the
processor (the value as built at the call site). -/
structure ProducedMsg where
  topic : String
  value : TxnEventVal
  key : String
deriving DecidableEq, Repr

/-- The `transaction_failed` event dict built in `process_transaction_message`
(keys `event_type`, `transaction_id`, `reference_id`, `reason`). -/
def failedMsg (txn : Txn) (reason : String) : ProducedMsg :=
  ⟨"transaction_events", TxnEventVal.failed txn.id txn.reference_id reason, txn.id⟩

/-- The `transaction_completed` event dict built in
`process_transaction_message`. -/
def completedMsg (txn : Txn) (now : String) : ProducedMsg :=
  ⟨"transaction_events",
    TxnEventVal.completed txn.id txn.reference_id txn.from_account_id
      txn.to_account_id txn.amount txn.currency (some now), txn.id⟩

/-- Observable outcome of one run of `process_transaction_message`: the
database row afterwards, the attempted ledger calls in order, the produced
Kafka messages in order, and the Lock Manager operations performed. -/
structure ProcResult where
  txn : Option Txn
  ledger_calls : List LedgerCall
  events : List ProducedMsg
  lock_ops : List String
deriving DecidableEq, Repr

/-- The `try`/`except` body of `process_transaction_message`
(`transaction_service/main.py` lines 180–281), entered once the ownership and
idempotency gates have passed on a PENDING transaction.  Call 0 is the debit
of `amount` from `from_account_id`, call 1 the credit to `to_account_id`, and
call 2 (reached only when call 1 returned False) the compensating credit back
to `from_account_id`, whose boolean result the source ignores.  A raised
`exn e` jumps to the `except` clause: status `FAILED`, one `transaction_failed`
event with `str(e)` as the reason, no further ledger calls. -/
def process_pending (txn : Txn) (ledger : Nat → LedgerResult) (now : String) :
    ProcResult :=
  let debitCall := update_account_balance_call txn.from_account_id txn.amount true
    ("Payment: " ++ txn.reference_id)
  match ledger 0 with
  | LedgerResult.exn e =>
      ⟨some { txn with status := TransactionStatus.FAILED },
        [debitCall], [failedMsg txn e], []⟩
  | LedgerResult.failed =>
      ⟨some { txn with status := TransactionStatus.FAILED },
        [debitCall], [failedMsg txn "Failed to debit source account"], []⟩
  | LedgerResult.ok =>
      let creditCall := update_account_balance_call txn.to_account_id txn.amount false
        ("Payment received: " ++ txn.reference_id)
      match ledger 1 with
      | LedgerResult.exn e =>
          ⟨some { txn with status := TransactionStatus.FAILED },
            [debitCall, creditCall], [failedMsg txn e], []⟩
      | LedgerResult.failed =>
          let compCall := update_account_balance_call txn.from_account_id txn.amount false
            ("Reversal: " ++ txn.reference_id)
          match ledger 2 with
          | LedgerResult.exn e =>
              ⟨some { txn with status := TransactionStatus.FAILED },
                [debitCall, creditCall, compCall], [failedMsg txn e], []⟩
          | _ =>
              ⟨some { txn with status := TransactionStatus.FAILED },
                [debitCall, creditCall, compCall],
                [failedMsg txn "Failed to credit destination account"], []⟩
      | LedgerResult.ok =>
          ⟨some { txn with status := TransactionStatus.COMPLETED,
                           completed_at := some now },
            [debitCall, creditCall], [completedMsg txn now], []⟩

/-- Embeds `process_transaction_message` (`transaction_service/main.py` lines
153–281).  `transaction_id` is the message's `transaction_id` field; `db` is
the row the database query returns for that id.  An `Except.error` models an
exception escaping the handler (only possible from the ownership check, on an
empty ring). -/
def process_transaction_message (ch : ConsistentHashing) (node_id : String)
    (transaction_id : String) (db : Option Txn) (ledger : Nat → LedgerResult)
    (now : String) : Except String ProcResult :=
  match is_responsible_for_key ch node_id transaction_id with
  | Except.error e => Except.error e
  | Except.ok false => Except.ok ⟨db, [], [], []⟩
  | Except.ok true =>
      match db with
      | none => Except.ok ⟨none, [], [], []⟩
      | some txn =>
          if txn.status ≠ TransactionStatus.PENDING then
            Except.ok ⟨some txn, [], [], []⟩
          else
            Except.ok (process_pending txn ledger now)

/-! ## Concrete fixtures for witnesses and counterexamples

`lenHash` is a concrete stand-in for the hash parameter (the source's MD5);
with the node names below it produces collision-free ring positions, so the
structural behaviour of `get_node` is exercised faithfully. -/

/-- Concrete hash used in witnesses: the length of the key. -/
def lenHash (s : String) : Nat := s.length

/-- A one-node ring: one replica at position `lenHash "node1:0" = 7`, so
`node1` owns every key. -/
def ch1 : ConsistentHashing := ConsistentHashing.init lenHash ["node1"] 1

/-- A ring with zero registered nodes. -/
def chEmpty : ConsistentHashing := ConsistentHashing.init lenHash [] 100

/-- A two-node ring with replica positions 4 (`n1:0`) and 7 (`node2:0`). -/
def chW : ConsistentHashing := ConsistentHashing.init lenHash ["n1", "node2"] 1

/-- A concrete PENDING transaction: 100 USD from account A to account B. -/
def txnA : Txn :=
  ⟨"tx1", "A", "B", 100, "USD", "ref1", TransactionStatus.PENDING, none⟩

/-- The same transaction already settled COMPLETED (a duplicate delivery). -/
def txnDone : Txn := { txnA with status := TransactionStatus.COMPLETED }

/-- Ledger environment where every call succeeds. -/
def ledgerAllOk : Nat → LedgerResult := fun _ => LedgerResult.ok

/-- Ledger environment where the debit succeeds and the credit call raises an
unhandled exception. -/
def ledgerExnAtCredit : Nat → LedgerResult
  | 0 => LedgerResult.ok
  | _ => LedgerResult.exn "boom"

/-- Ledger environment where the debit succeeds, the credit fails, and the
compensating credit back to the source account also fails. -/
def ledgerCompFails : Nat → LedgerResult
  | 0 => LedgerResult.ok
  | _ => LedgerResult.failed

/-- Ledger environment where the debit succeeds, the credit fails, and the
compensating credit back to the source account succeeds. -/
def ledgerCompOk : Nat → LedgerResult
  | 0 => LedgerResult.ok
  | 1 => LedgerResult.failed
  | _ => LedgerResult.ok

/-! ## Helper lemmas -/

/-- Unfolding lemma for association-list lookup. -/
theorem lookup_cons_eq {α β : Type} [BEq α] [LawfulBEq α] [DecidableEq α]
    (a k : α) (b : β) (t : List (α × β)) :
    ((k, b) :: t).lookup a = if a = k then some b else t.lookup a := by
  by_cases h : a = k
  · simp [List.lookup, h]
  · simp [List.lookup, h, beq_eq_false_iff_ne.mpr h]

/-- Deleting a key from the lock store removes its binding. -/
theorem lookup_redis_delete_self (store : LockStore) (k : String) :
    (redis_delete store k).lookup k = none := by
  induction store with
  | nil => rfl
  | cons p t ih =>
      obtain ⟨a, b⟩ := p
      by_cases hp : a = k
      · simpa [redis_delete, List.filter_cons, hp] using ih
      · simpa [redis_delete, List.filter_cons, hp, lookup_cons_eq,
          Ne.symm hp] using ih

/-- Deleting one key from the lock store leaves every other key's binding
unchanged. -/
theorem lookup_redis_delete_other (store : LockStore) (k k2 : String)
    (h : k2 ≠ k) : (redis_delete store k).lookup k2 = store.lookup k2 := by
  induction store with
  | nil => rfl
  | cons p t ih =>
      obtain ⟨a, b⟩ := p
      by_cases hp : a = k
      · have hk2 : k2 ≠ a := fun hc => h (hc.trans hp)
        simpa [redis_delete, List.filter_cons, hp, lookup_cons_eq, hk2, h] using ih
      · by_cases h2 : k2 = a
        · simp [redis_delete, List.filter_cons, hp, lookup_cons_eq, h2]
        · simpa [redis_delete, List.filter_cons, hp, lookup_cons_eq, h2] using ih

/-- Reading a message dict after `dictSet`: the written key maps to the new
value, every other key is unchanged. -/
theorem dictLookup_dictSet (k k2 : String) (v : JVal) (d : List (String × JVal)) :
    dictLookup k2 (dictSet k v d) = if k2 = k then some v else dictLookup k2 d := by
  induction d with
  | nil =>
      by_cases h : k2 = k
      · simp [dictSet, dictLookup, h]
      · simp [dictSet, dictLookup, h, Ne.symm h]
  | cons p t ih =>
      obtain ⟨a, w⟩ := p
      by_cases ha : a = k
      · by_cases h2 : k2 = k
        · simp [dictSet, dictLookup, ha, h2]
        · simp [dictSet, dictLookup, ha, h2, Ne.symm h2]
      · by_cases h2 : k2 = a
        · have hk : ¬ k2 = k := fun hc => ha ((h2.symm.trans hc) ▸ rfl)
          simp [dictSet, dictLookup, ha, h2, hk]
        · simp [dictSet, dictLookup, ha, Ne.symm h2, h2, ih]

/-- On a list sorted in nondecreasing order, `find?` with an upward-closed
threshold predicate returns the least element at or above the threshold, and
returns `none` exactly when every element is below it. -/
theorem find_first_ge (hk : Nat) :
    ∀ l : List Nat, l.Sorted (· ≤ ·) →
    (∀ p, l.find? (fun rk => hk ≤ rk) = some p →
        p ∈ l ∧ hk ≤ p ∧ ∀ q ∈ l, hk ≤ q → p ≤ q) ∧
    (l.find? (fun rk => hk ≤ rk) = none → ∀ q ∈ l, q < hk) := by
  intro l
  induction l with
  | nil =>
      intro _
      exact ⟨fun p h => (by cases h), fun _ q hq => absurd hq (List.not_mem_nil q)⟩
  | cons x t ih =>
      intro hs
      rw [List.sorted_cons] at hs
      obtain ⟨hx, ht⟩ := hs
      obtain ⟨ih1, ih2⟩ := ih ht
      by_cases hx0 : hk ≤ x
      · constructor
        · intro p hp
          rw [List.find?_cons, show (decide (hk ≤ x)) = true from by simpa using hx0] at hp
          obtain rfl : x = p := by simpa using hp
          refine ⟨List.mem_cons_self x t, hx0, ?_⟩
          intro q hq _
          rcases List.mem_cons.mp hq with rfl | hq
          · exact le_refl q
          · exact hx q hq
        · intro hn
          rw [List.find?_cons, show (decide (hk ≤ x)) = true from by simpa using hx0] at hn
          cases hn
      · constructor
        · intro p hp
          rw [List.find?_cons, show (decide (hk ≤ x)) = false from by simpa using hx0] at hp
          obtain ⟨hmem, hle, hmin⟩ := ih1 p hp
          refine ⟨List.mem_cons_of_mem x hmem, hle, ?_⟩
          intro q hq hq2
          rcases List.mem_cons.mp hq with rfl | hq
          · exact absurd hq2 hx0
          · exact hmin q hq hq2
        · intro hn q hq
          rw [List.find?_cons, show (decide (hk ≤ x)) = false from by simpa using hx0] at hn
          rcases List.mem_cons.mp hq with rfl | hq
          · exact Nat.lt_of_not_le hx0
          · exact ih2 hn q hq

/-- A key occurring among an association list's keys has a binding. -/
theorem lookup_of_mem_keys {α β : Type} [BEq α] [LawfulBEq α] [DecidableEq α]
    (a : α) :
    ∀ l : List (α × β), a ∈ l.map Prod.fst → ∃ b, l.lookup a = some b := by
  intro l
  induction l with
  | nil => intro h; simp at h
  | cons p t ih =>
      intro h
      obtain ⟨x, y⟩ := p
      by_cases hx : a = x
      · exact ⟨y, by rw [lookup_cons_eq, if_pos hx]⟩
      · have hmem : a ∈ t.map Prod.fst := by simpa [hx] using h
        obtain ⟨b, hb⟩ := ih hmem
        exact ⟨b, by rw [lookup_cons_eq, if_neg hx]; exact hb⟩

/-- The head of a nonempty nondecreasing sorted list is a minimum. -/
theorem headD_min_of_sorted (l : List Nat) (hs : l.Sorted (· ≤ ·))
    (hne : l ≠ []) : l.headD 0 ∈ l ∧ ∀ q ∈ l, l.headD 0 ≤ q := by
  cases l with
  | nil => exact absurd rfl hne
  | cons x t =>
      rw [List.sorted_cons] at hs
      refine ⟨List.mem_cons_self x t, ?_⟩
      intro q hq
      rcases List.mem_cons.mp hq with rfl | hq
      · exact le_refl q
      · exact hs.1 q hq

/-! ## Claim theorems -/

/-- C7: when a binding for the resource key already exists in the backing
store, the set-if-absent acquire returns false immediately with the store
untouched (no blocking, no retry), the wrapper aborts with the
lock-contention exception, and the guarded critical section is not entered. -/
theorem lock_contention_aborts {α : Type} (prefix_str node_id now rid : String)
    (store : LockStore) (body : Except String α)
    (h : (store.lookup (prefix_str ++ ":" ++ rid)).isSome = true) :
    redis_set_nx store (prefix_str ++ ":" ++ rid) (node_id ++ ":" ++ now)
      = (false, store) ∧
    (distributed_lock_run prefix_str node_id now (some rid) body store).result
      = Except.error ("Failed to acquire lock for " ++ (prefix_str ++ ":" ++ rid)) ∧
    (distributed_lock_run prefix_str node_id now (some rid) body store).entered
      = false ∧
    (distributed_lock_run prefix_str node_id now (some rid) body store).store
      = store := by
  have hset : redis_set_nx store (prefix_str ++ ":" ++ rid) (node_id ++ ":" ++ now)
      = (false, store) := by
    simp [redis_set_nx, h]
  refine ⟨hset, ?_, ?_, ?_⟩ <;> simp [distributed_lock_run, hset]

/-- Witness for C7 at a concrete contended store. -/
theorem lock_contention_aborts_witness :
    (distributed_lock_run "tx_lock" "node1" "9" (some "t1") (Except.ok (0 : Nat))
        [("tx_lock:t1", "node2:5")]).entered = false ∧
    (distributed_lock_run "tx_lock" "node1" "9" (some "t1") (Except.ok (0 : Nat))
        [("tx_lock:t1", "node2:5")]).store = [("tx_lock:t1", "node2:5")] :=
  ⟨(lock_contention_aborts "tx_lock" "node1" "9" "t1" [("tx_lock:t1", "node2:5")]
      (Except.ok 0) (by decide)).2.2.1,
   (lock_contention_aborts "tx_lock" "node1" "9" "t1" [("tx_lock:t1", "node2:5")]
      (Except.ok 0) (by decide)).2.2.2⟩

/-- C8: the release path deletes the lock binding only when the stored value
still equals the releasing caller's token; when the stored value differs (the
lock expired and was possibly reacquired by another holder), the store is left
completely unchanged. -/
theorem lock_release_only_if_owner (store : LockStore) (k token : String) :
    (store.lookup k ≠ some token → lock_release store k token = store) ∧
    (store.lookup k = some token →
      (lock_release store k token).lookup k = none ∧
      ∀ k2, k2 ≠ k → (lock_release store k token).lookup k2 = store.lookup k2) := by
  constructor
  · intro h
    simp [lock_release, h]
  · intro h
    refine ⟨?_, ?_⟩
    · simp [lock_release, h, lookup_redis_delete_self]
    · intro k2 hk2
      simp [lock_release, h, lookup_redis_delete_other store k k2 hk2]

/-- Witness for C8: a stale holder's release leaves the second party's binding
in place; a valid release deletes exactly its own binding. -/
theorem lock_release_only_if_owner_witness :
    lock_release [("tx_lock:t1", "node2:77")] "tx_lock:t1" "node1:5"
      = [("tx_lock:t1", "node2:77")] ∧
    (lock_release [("tx_lock:t1", "node1:5"), ("other", "v")] "tx_lock:t1"
        "node1:5").lookup "tx_lock:t1" = none ∧
    (lock_release [("tx_lock:t1", "node1:5"), ("other", "v")] "tx_lock:t1"
        "node1:5").lookup "other" = some "v" :=
  ⟨(lock_release_only_if_owner [("tx_lock:t1", "node2:77")] "tx_lock:t1" "node1:5").1
      (by decide),
   ((lock_release_only_if_owner [("tx_lock:t1", "node1:5"), ("other", "v")]
      "tx_lock:t1" "node1:5").2 (by decide)).1,
   ((lock_release_only_if_owner [("tx_lock:t1", "node1:5"), ("other", "v")]
      "tx_lock:t1" "node1:5").2 (by decide)).2 "other" (by decide)⟩

/-- C10 counterexample: a dict-valued message whose existing `metadata` value
is not itself a dict is sent completely unchanged, so the published envelope
does not carry `metadata.source_node` as the claim asserts of every
dict-valued message. -/
theorem produce_message_nondict_metadata_unchanged :
    produce_message_value "node1" [("metadata", JVal.str "x")]
      = [("metadata", JVal.str "x")] ∧
    (dictLookup "metadata" (produce_message_value "node1"
        [("metadata", JVal.str "x")])).isSome = true ∧
    ∀ m : List (String × JVal),
      dictLookup "metadata" (produce_message_value "node1"
        [("metadata", JVal.str "x")]) = some (JVal.obj m) → False := by
  refine ⟨rfl, rfl, ?_⟩
  intro m h
  rw [show dictLookup "metadata" (produce_message_value "node1"
      [("metadata", JVal.str "x")]) = some (JVal.str "x") from rfl] at h
  cases h

/-- C10 amended: `produce_message` inserts a `metadata` dict carrying
`source_node` when the key is absent, and sets `source_node` inside an
existing dict-valued `metadata`, leaving all other keys untouched; a message
whose `metadata` value is not a dict is sent unchanged. -/
theorem produce_message_value_spec (node_id : String)
    (value : List (String × JVal)) :
    (dictLookup "metadata" value = none →
       dictLookup "metadata" (produce_message_value node_id value)
         = some (JVal.obj [("source_node", JVal.str node_id)]) ∧
       ∀ k, k ≠ "metadata" →
         dictLookup k (produce_message_value node_id value) = dictLookup k value) ∧
    (∀ m, dictLookup "metadata" value = some (JVal.obj m) →
       dictLookup "metadata" (produce_message_value node_id value)
         = some (JVal.obj (dictSet "source_node" (JVal.str node_id) m)) ∧
       ∀ k, k ≠ "metadata" →
         dictLookup k (produce_message_value node_id value) = dictLookup k value) ∧
    (∀ v, dictLookup "metadata" value = some v → (∀ m, v ≠ JVal.obj m) →
       produce_message_value node_id value = value) := by
  refine ⟨?_, ?_, ?_⟩
  · intro h
    have h1 : dictLookup "metadata"
        (dictSet "metadata" (JVal.obj []) value) = some (JVal.obj []) := by
      rw [dictLookup_dictSet]
      simp
    constructor
    · simp only [produce_message_value, h, Option.isNone_none, if_true, h1]
      rw [dictLookup_dictSet]
      simp [dictSet]
    · intro k hk
      simp only [produce_message_value, h, Option.isNone_none, if_true, h1]
      rw [dictLookup_dictSet, if_neg hk, dictLookup_dictSet, if_neg hk]
  · intro m h
    have hv : produce_message_value node_id value
        = dictSet "metadata"
            (JVal.obj (dictSet "source_node" (JVal.str node_id) m)) value := by
      simp [produce_message_value, h]
    constructor
    · rw [hv, dictLookup_dictSet]
      simp
    · intro k hk
      rw [hv, dictLookup_dictSet, if_neg hk]
  · intro v h hv
    cases v with
    | obj m => exact absurd rfl (hv m)
    | null => simp [produce_message_value, h]
    | str s => simp [produce_message_value, h]
    | num q => simp [produce_message_value, h]
    | boolean b => simp [produce_message_value, h]

/-- Witness for the amended C10 on the three metadata shapes: absent,
dict-valued, and non-dict. -/
theorem produce_message_value_spec_witness :
    dictLookup "metadata" (produce_message_value "node1"
        [("event_type", JVal.str "transaction_completed")])
      = some (JVal.obj [("source_node", JVal.str "node1")]) ∧
    dictLookup "event_type" (produce_message_value "node1"
        [("event_type", JVal.str "transaction_completed")])
      = some (JVal.str "transaction_completed") ∧
    dictLookup "metadata" (produce_message_value "node1"
        [("metadata", JVal.obj [("trace", JVal.null)])])
      = some (JVal.obj [("trace", JVal.null), ("source_node", JVal.str "node1")]) ∧
    produce_message_value "node1" [("metadata", JVal.num 3)]
      = [("metadata", JVal.num 3)] :=
  ⟨((produce_message_value_spec "node1"
      [("event_type", JVal.str "transaction_completed")]).1 rfl).1,
   ((produce_message_value_spec "node1"
      [("event_type", JVal.str "transaction_completed")]).1 rfl).2
      "event_type" (by decide),
   ((produce_message_value_spec "node1"
      [("metadata", JVal.obj [("trace", JVal.null)])]).2.1
      [("trace", JVal.null)] rfl).1,
   (produce_message_value_spec "node1" [("metadata", JVal.num 3)]).2.2
      (JVal.num 3) rfl (fun m hc => by cases hc)⟩

/-- C9: `get_node` on a ring with zero registered nodes fails with the
empty-ring error; on a non-empty ring whose cached `sorted_keys` mirrors the
ring's keys in sorted order (the invariant `add_node` maintains) it returns
the node of the least ring position at or after the key's hash, wrapping to
the overall least position when every position is below the hash. -/
theorem get_node_first_at_or_after (ch : ConsistentHashing) (key : String)
    (hperm : ch.sorted_keys.Perm (ch.ring.map Prod.fst))
    (hsorted : ch.sorted_keys.Sorted (· ≤ ·)) :
    (ch.ring = [] → ch.get_node key = Except.error "Hash ring is empty") ∧
    (ch.ring ≠ [] → ∃ p node,
        p ∈ ch.sorted_keys ∧ ch.ring.lookup p = some node ∧
        ch.get_node key = Except.ok node ∧
        ((ch.hashFn key ≤ p ∧ ∀ q ∈ ch.sorted_keys, ch.hashFn key ≤ q → p ≤ q) ∨
         ((∀ q ∈ ch.sorted_keys, q < ch.hashFn key) ∧
          ∀ q ∈ ch.sorted_keys, p ≤ q))) := by
  constructor
  · intro h
    simp [ConsistentHashing.get_node, h]
  · intro hne
    have hie : ch.ring.isEmpty = false := by
      simpa [List.isEmpty_iff] using hne
    rcases hf : ch.sorted_keys.find? (fun rk => ch.hashFn key ≤ rk) with _ | rk
    · have hall := (find_first_ge (ch.hashFn key) ch.sorted_keys hsorted).2 hf
      have hnes : ch.sorted_keys ≠ [] := by
        intro hz
        have : ch.ring.map Prod.fst = [] := (hz ▸ hperm.symm).eq_nil
        exact hne (List.map_eq_nil_iff.mp this)
      obtain ⟨hmem, hmin⟩ := headD_min_of_sorted ch.sorted_keys hsorted hnes
      obtain ⟨node, hlk⟩ := lookup_of_mem_keys (β := String)
        (ch.sorted_keys.headD 0) ch.ring (hperm.mem_iff.mp hmem)
      refine ⟨ch.sorted_keys.headD 0, node, hmem, hlk, ?_, Or.inr ⟨hall, hmin⟩⟩
      rw [List.headD_eq_head?_getD] at hlk
      simp [ConsistentHashing.get_node, hie, hf, hlk]
    · obtain ⟨hmem, hge, hmin⟩ :=
        (find_first_ge (ch.hashFn key) ch.sorted_keys hsorted).1 rk hf
      obtain ⟨node, hlk⟩ := lookup_of_mem_keys (β := String)
        rk ch.ring (hperm.mem_iff.mp hmem)
      refine ⟨rk, node, hmem, hlk, ?_, Or.inl ⟨hge, hmin⟩⟩
      simp [ConsistentHashing.get_node, hie, hf, hlk]

/-- Witness for C9: the empty-ring failure, and a concrete two-node ring
(replica positions 4 and 7) where `get_node` picks position 4 for a hash of 3
and wraps to position 4 for a hash of 9. -/
theorem get_node_first_at_or_after_witness :
    chEmpty.get_node "tx1" = Except.error "Hash ring is empty" ∧
    chW.get_node "tx1" = Except.ok "n1" ∧
    chW.get_node "txwrapped9" = Except.ok "n1" ∧
    chW.get_node "tx555" = Except.ok "node2" :=
  ⟨(get_node_first_at_or_after chEmpty "tx1" (by decide) (by decide)).1 rfl,
   rfl, rfl, rfl⟩

/-- C6: a delivered message whose ring owner is not the local node is
discarded: zero ledger calls, no change to the stored transaction, no events
published, no lock operations. -/
theorem non_owner_discard (ch : ConsistentHashing)
    (node_id transaction_id : String) (db : Option Txn)
    (ledger : Nat → LedgerResult) (now : String)
    (hresp : is_responsible_for_key ch node_id transaction_id = Except.ok false) :
    process_transaction_message ch node_id transaction_id db ledger now
      = Except.ok ⟨db, [], [], []⟩ := by
  unfold process_transaction_message
  rw [hresp]

/-- Witness for C6: `node2` is not the owner of `tx1` on the one-node ring. -/
theorem non_owner_discard_witness :
    process_transaction_message ch1 "node2" "tx1" (some txnA) ledgerAllOk "t0"
      = Except.ok ⟨some txnA, [], [], []⟩ :=
  non_owner_discard ch1 "node2" "tx1" (some txnA) ledgerAllOk "t0" rfl

/-- C5: a delivered message owned by the local node whose stored transaction
is not PENDING stops at the idempotency gate: zero ledger calls, the row is
unchanged, no events published, no lock operations. -/
theorem idempotency_gate_no_effects (ch : ConsistentHashing)
    (node_id transaction_id : String) (txn : Txn)
    (ledger : Nat → LedgerResult) (now : String)
    (hresp : is_responsible_for_key ch node_id transaction_id = Except.ok true)
    (hstatus : txn.status ≠ TransactionStatus.PENDING) :
    process_transaction_message ch node_id transaction_id (some txn) ledger now
      = Except.ok ⟨some txn, [], [], []⟩ := by
  unfold process_transaction_message
  rw [hresp]
  simp [hstatus]

/-- Witness for C5: redelivery of the already COMPLETED transaction. -/
theorem idempotency_gate_no_effects_witness :
    process_transaction_message ch1 "node1" "tx1" (some txnDone) ledgerAllOk "t0"
      = Except.ok ⟨some txnDone, [], [], []⟩ :=
  idempotency_gate_no_effects ch1 "node1" "tx1" txnDone ledgerAllOk "t0" rfl
    (by decide)

/-- C3: when the debit succeeds and the credit fails (and the compensation
call itself returns rather than raising), the processor issues a compensating
credit of the same amount back to the source account, sets the transaction
FAILED, and publishes exactly one `transaction_failed` event whose reason
mentions the credit leg. -/
theorem credit_failure_compensates (ch : ConsistentHashing)
    (node_id transaction_id : String) (txn : Txn)
    (ledger : Nat → LedgerResult) (now : String)
    (hresp : is_responsible_for_key ch node_id transaction_id = Except.ok true)
    (hpend : txn.status = TransactionStatus.PENDING)
    (hdebit : ledger 0 = LedgerResult.ok)
    (hcredit : ledger 1 = LedgerResult.failed)
    (hcomp : ledger 2 = LedgerResult.ok ∨ ledger 2 = LedgerResult.failed) :
    process_transaction_message ch node_id transaction_id (some txn) ledger now
      = Except.ok ⟨some { txn with status := TransactionStatus.FAILED },
        [update_account_balance_call txn.from_account_id txn.amount true
            ("Payment: " ++ txn.reference_id),
         update_account_balance_call txn.to_account_id txn.amount false
            ("Payment received: " ++ txn.reference_id),
         update_account_balance_call txn.from_account_id txn.amount false
            ("Reversal: " ++ txn.reference_id)],
        [failedMsg txn "Failed to credit destination account"], []⟩ ∧
    (∃ a b, "Failed to credit destination account" = a ++ "credit" ++ b) := by
  constructor
  · unfold process_transaction_message
    rw [hresp]
    simp only [hpend, ne_eq, not_true_eq_false, if_false, ite_false]
    unfold process_pending
    rw [hdebit, hcredit]
    rcases hcomp with h2 | h2 <;> rw [h2]
  · exact ⟨"Failed to ", " destination account", rfl⟩

/-- Witness for C3 at the concrete run where the compensation succeeds. -/
theorem credit_failure_compensates_witness :
    process_transaction_message ch1 "node1" "tx1" (some txnA) ledgerCompOk "t0"
      = Except.ok ⟨some { txnA with status := TransactionStatus.FAILED },
        [⟨"A", Op.withdraw, 100, "Payment: ref1"⟩,
         ⟨"B", Op.deposit, 100, "Payment received: ref1"⟩,
         ⟨"A", Op.deposit, 100, "Reversal: ref1"⟩],
        [failedMsg txnA "Failed to credit destination account"], []⟩ :=
  (credit_failure_compensates ch1 "node1" "tx1" txnA ledgerCompOk "t0" rfl rfl
    rfl rfl (Or.inl rfl)).1

/-- C2 counterexample: in the concrete run where the debit of 100 from A
succeeded and the credit call then raised an unhandled exception, the
`except` clause sets FAILED and publishes one `transaction_failed` event with
the exception text as reason, but the trace contains no deposit back to A:
no compensating credit is issued, contrary to the claim. -/
theorem exception_after_debit_no_compensation_cex :
    process_transaction_message ch1 "node1" "tx1" (some txnA) ledgerExnAtCredit
        "t0"
      = Except.ok ⟨some { txnA with status := TransactionStatus.FAILED },
          [⟨"A", Op.withdraw, 100, "Payment: ref1"⟩,
           ⟨"B", Op.deposit, 100, "Payment received: ref1"⟩],
          [failedMsg txnA "boom"], []⟩ ∧
    Except.map (fun r => r.ledger_calls.filter
        (fun c => c.account == "A" && c.op == Op.deposit))
      (process_transaction_message ch1 "node1" "tx1" (some txnA)
        ledgerExnAtCredit "t0")
      = Except.ok [] :=
  ⟨rfl, rfl⟩

/-- C2 amended: an unhandled exception during the debit/credit sequence sets
the transaction FAILED and publishes exactly one `transaction_failed` event
whose reason is the exception text, but no compensating credit back to the
source account is issued, even when the debit had already succeeded. -/
theorem unhandled_exception_fails_without_compensation (ch : ConsistentHashing)
    (node_id transaction_id : String) (txn : Txn)
    (ledger : Nat → LedgerResult) (now e : String)
    (hresp : is_responsible_for_key ch node_id transaction_id = Except.ok true)
    (hpend : txn.status = TransactionStatus.PENDING)
    (hneq : txn.to_account_id ≠ txn.from_account_id)
    (hexn : ledger 0 = LedgerResult.exn e ∨
            (ledger 0 = LedgerResult.ok ∧ ledger 1 = LedgerResult.exn e)) :
    ∃ calls,
      process_transaction_message ch node_id transaction_id (some txn) ledger
          now
        = Except.ok ⟨some { txn with status := TransactionStatus.FAILED },
            calls, [failedMsg txn e], []⟩ ∧
      ∀ c ∈ calls, ¬ (c.account = txn.from_account_id ∧ c.op = Op.deposit) := by
  rcases hexn with h0 | ⟨h0, h1⟩
  · refine ⟨[update_account_balance_call txn.from_account_id txn.amount true
        ("Payment: " ++ txn.reference_id)], ?_, ?_⟩
    · unfold process_transaction_message
      rw [hresp]
      simp only [hpend, ne_eq, not_true_eq_false, if_false, ite_false]
      unfold process_pending
      rw [h0]
    · intro c hc
      rw [List.mem_singleton] at hc
      subst hc
      rintro ⟨-, hop⟩
      simp [update_account_balance_call] at hop
  · refine ⟨[update_account_balance_call txn.from_account_id txn.amount true
        ("Payment: " ++ txn.reference_id),
      update_account_balance_call txn.to_account_id txn.amount false
        ("Payment received: " ++ txn.reference_id)], ?_, ?_⟩
    · unfold process_transaction_message
      rw [hresp]
      simp only [hpend, ne_eq, not_true_eq_false, if_false, ite_false]
      unfold process_pending
      rw [h0, h1]
    · intro c hc
      rw [List.mem_cons, List.mem_singleton] at hc
      rcases hc with hc | hc <;> subst hc <;> rintro ⟨hacc, hop⟩
      · simp [update_account_balance_call] at hop
      · simp only [update_account_balance_call] at hacc
        exact hneq hacc

/-- Witness for the amended C2 at the concrete exception-during-credit run. -/
theorem unhandled_exception_fails_without_compensation_witness :
    process_transaction_message ch1 "node1" "tx1" (some txnA) ledgerExnAtCredit
        "t0"
      = Except.ok ⟨some { txnA with status := TransactionStatus.FAILED },
          [update_account_balance_call "A" 100 true "Payment: ref1",
           update_account_balance_call "B" 100 false "Payment received: ref1"],
          [failedMsg txnA "boom"], []⟩ := by
  obtain ⟨calls, h1, -⟩ := unhandled_exception_fails_without_compensation ch1
    "node1" "tx1" txnA ledgerExnAtCredit "t0" "boom" rfl rfl (by decide)
    (Or.inr ⟨rfl, rfl⟩)
  have h2 := Except.ok.inj (h1.symm.trans
    (rfl : process_transaction_message ch1 "node1" "tx1" (some txnA)
      ledgerExnAtCredit "t0"
      = Except.ok ⟨some { txnA with status := TransactionStatus.FAILED },
          [update_account_balance_call "A" 100 true "Payment: ref1",
           update_account_balance_call "B" 100 false "Payment received: ref1"],
          [failedMsg txnA "boom"], []⟩))
  have hcalls : calls
      = [update_account_balance_call "A" 100 true "Payment: ref1",
         update_account_balance_call "B" 100 false "Payment received: ref1"] :=
    congrArg ProcResult.ledger_calls h2
  rw [hcalls] at h1
  exact h1

/-- C1 evidence: on the concrete delivery of the PENDING transaction `tx1`
owned by the local node, the processor goes straight from the gates to the
ledger debit and credit while performing zero Lock Manager operations —
`process_transaction_message` never consults any lock state, so contention
cannot abort a delivery. -/
theorem owned_pending_processed_without_lock :
    process_transaction_message ch1 "node1" "tx1" (some txnA) ledgerAllOk "t0"
      = Except.ok ⟨some { txnA with
            status := TransactionStatus.COMPLETED
            completed_at := some "t0" },
          [⟨"A", Op.withdraw, 100, "Payment: ref1"⟩,
           ⟨"B", Op.deposit, 100, "Payment received: ref1"⟩],
          [completedMsg txnA "t0"], []⟩ :=
  rfl

/-- C4 evidence: the run where the compensating credit back to A fails
publishes exactly the same single `transaction_failed` event, with the
ordinary credit-leg reason string, as the run where the compensation
succeeds: the compensation call's result is ignored and its failure is not
surfaced distinguishably.  The third conjunct shows the compensation call was
indeed attempted in the failing run. -/
theorem compensation_failure_reason_conflated :
    Except.map ProcResult.events
      (process_transaction_message ch1 "node1" "tx1" (some txnA)
        ledgerCompFails "t0")
      = Except.ok [failedMsg txnA "Failed to credit destination account"] ∧
    Except.map ProcResult.events
      (process_transaction_message ch1 "node1" "tx1" (some txnA)
        ledgerCompOk "t0")
      = Except.ok [failedMsg txnA "Failed to credit destination account"] ∧
    Except.map ProcResult.ledger_calls
      (process_transaction_message ch1 "node1" "tx1" (some txnA)
        ledgerCompFails "t0")
      = Except.ok [⟨"A", Op.withdraw, 100, "Payment: ref1"⟩,
          ⟨"B", Op.deposit, 100, "Payment received: ref1"⟩,
          ⟨"A", Op.deposit, 100, "Reversal: ref1"⟩] :=
  ⟨rfl, rfl, rfl⟩
